import Mathlib

/-!
Shallow embedding of the arxiv-cli interaction state machine (src/main.rs).

Machine integers are modelled as `Nat` with explicit `% 2^w` where overflow
matters; Rust operations that can panic (index out of bounds, unsigned
underflow in debug builds) are modelled as `Option`/an explicit `panicked`
result.  I/O collaborators (the HTTP fetch, the filesystem, the browser
opener) are modelled as oracles passed in as function arguments or recorded
as outputs.
-/

namespace ArxivCli

/-- Model of Rust `u16::MAX`. -/
def U16_MAX : Nat := 65535

/-- Model of Rust `usize::MAX` on a 64-bit target. -/
def USIZE_MAX : Nat := 18446744073709551615

/-- ASCII digit test, as used by Rust's unsigned integer `parse`. -/
def isAsciiDigit (c : Char) : Bool := 48 ≤ c.toNat && c.toNat ≤ 57

/-- Accumulate the decimal value of a digit list (most significant first). -/
def digitsVal : List Char → Nat → Nat
  | [], acc => acc
  | c :: rest, acc => digitsVal rest (acc * 10 + (c.toNat - 48))

/-- Model of Rust `str::parse::<uN>` restricted to the digit strings the
accumulator can hold: fails on the empty string and on any non-digit
character; the width bound is checked by `parse_or` below. -/
def parseNat (s : String) : Option Nat :=
  match s.data with
  | [] => none
  | l => if l.all isAsciiDigit then some (digitsVal l 0) else none

/-- Model of `amount.parse::<uN>().unwrap_or(d)`: parse failure, including a
value exceeding the integer type's bound, yields the default. -/
def parse_or (bound : Nat) (s : String) (d : Nat) : Nat :=
  match parseNat s with
  | some n => if n ≤ bound then n else d
  | none => d

/-- Model of Rust `str::replace` (all non-overlapping occurrences, scanned
left to right), fuelled by the length of the subject string; the call site
only uses the nonempty pattern `"arxiv"`. -/
def replaceLoop : Nat → List Char → List Char → List Char → List Char
  | _, [], _, _ => []
  | 0, s, _, _ => s
  | fuel + 1, c :: rest, pat, rep =>
    if pat.isPrefixOf (c :: rest) then
      rep ++ replaceLoop fuel (List.drop pat.length (c :: rest)) pat rep
    else
      c :: replaceLoop fuel rest pat rep

/-- Model of Rust `str::replace` on strings (identity for an empty pattern,
which the program never uses). -/
def rustReplace (s pat rep : String) : String :=
  match pat.data with
  | [] => s
  | _ => String.mk (replaceLoop s.data.length s.data pat.data rep.data)

/-- Strip one trailing carriage return from a reversed line buffer, as Rust
`str::lines` does for `\r\n` line endings. -/
def dropCR : List Char → List Char
  | '\r' :: t => t
  | l => l

/-- Worker for `rustLines`: split at `'\n'`, a final line ending is optional
and produces no trailing empty line. -/
def linesGo : List Char → List Char → List String
  | [], [] => []
  | [], cur => [String.mk cur.reverse]
  | c :: rest, cur =>
    if c = '\n' then String.mk (dropCR cur).reverse :: linesGo rest []
    else linesGo rest (c :: cur)

/-- Model of Rust `str::lines`. -/
def rustLines (s : String) : List String := linesGo s.data []

/-- Insert for `HashSet<String>`, on a duplicate-free list model of the set. -/
def hsInsert (s : List String) (x : String) : List String :=
  if x ∈ s then s else x :: s

/-- Remove for `HashSet<String>`. -/
def hsRemove (s : List String) (x : String) : List String :=
  s.filter (fun y => y != x)

/-- Rust struct `Link` from src/main.rs. -/
structure Link where
  href : String
  rel : String
  type_field : Option String
  title : Option String
deriving DecidableEq

/-- Rust struct `Category` from src/main.rs. -/
structure Category where
  term : String
  scheme : String
deriving DecidableEq

/-- Rust struct `Response` from src/main.rs: one search-result document. -/
structure Response where
  id : String
  title : String
  summary : String
  authors : List (List String)
  links : List Link
  published : String
  updated : String
  categories : List Category
deriving DecidableEq

/-- Rust struct `Params` from src/main.rs; `page` is a `u16` value. -/
structure Params where
  page : Nat
  query : String
deriving DecidableEq

/-- Constructor `Params::new`. -/
def Params.new : Params := ⟨1, "algorithms"⟩

/-- Method `Params::next_page_by`: the `u16` sum `page + amount` wraps modulo
`2^16` in release builds (debug builds panic on overflow); the wrapped sum
is then compared against 1000. -/
def Params.next_page_by (p : Params) (amount : Nat) : Params :=
  let sum := (p.page + amount) % 65536
  { p with page := if sum < 1000 then sum else 1000 }

/-- Method `Params::prev_page_by`. -/
def Params.prev_page_by (p : Params) (amount : Nat) : Params :=
  { p with page := if p.page ≤ amount then 0 else p.page - amount }

/-- Method `Params::set_query`. -/
def Params.set_query (p : Params) (q : String) : Params := { p with query := q }

/-- Rust struct `App` from src/main.rs; `selected` models `TableState::selected`, and
the `HashSet<String>` of seen ids is modelled as a duplicate-free list. -/
structure App where
  selected : Option Nat
  items : List Response
  current : Option Nat
  ids : List String
deriving DecidableEq

/-- Constructor `App::new`. -/
def App.new : App := ⟨none, [], none, []⟩

/-- Method `App::set_ids`. -/
def App.set_ids (app : App) (ids : List String) : App := { app with ids := ids }

/-- Method `App::add_id`. -/
def App.add_id (app : App) (id : String) : App := { app with ids := hsInsert app.ids id }

/-- Method `App::remove_id`. -/
def App.remove_id (app : App) (id : String) : App := { app with ids := hsRemove app.ids id }

/-- Method `App::update_items`. -/
def App.update_items (app : App) (items : List Response) : App := { app with items := items }

/-- Method `App::first_item`. -/
def App.first_item (app : App) : App := { app with current := some 0, selected := some 0 }

/-- Method `App::last_item`. -/
def App.last_item (app : App) : App :=
  let last := if app.items.isEmpty then some 0 else some (app.items.length - 1)
  { app with current := last, selected := last }

/-- Method `App::next_by`: when a row is selected the code evaluates
`self.items.len() - 1`, whose `usize` subtraction underflows on an empty
list (a panic in debug builds), modelled as `none`; the `usize` addition
`i + amount` is modelled as exact `Nat` addition. -/
def App.next_by (app : App) (amount : Nat) : Option App :=
  match app.selected with
  | some i =>
    if app.items.length = 0 then none
    else
      let j := if i + amount ≥ app.items.length - 1 then app.items.length - 1 else i + amount
      some { app with current := some j, selected := some j }
  | none => some { app with current := some 0, selected := some 0 }

/-- Method `App::previous_by`: every subtraction is guarded, so the operation is
total. -/
def App.previous_by (app : App) (amount : Nat) : App :=
  let i := match app.selected with
    | some 0 => 0
    | some i => if amount ≥ i then 0 else i - amount
    | none => 0
  { app with current := some i, selected := some i }

/-- Constant `FILE_PATH` from src/main.rs. -/
def FILE_PATH : String := ".arxiv-cli"

/-- The persisted seen-set location: the home directory, a slash, and
FILE_PATH, as formatted by both save_ids and get_ids. -/
def idsFilePath (home : String) : String := home ++ "/" ++ FILE_PATH

/-- Function `get_ids` from src/main.rs, with the filesystem modelled as oracles:
`home` is `dirs::home_dir()` and `read` is `std::fs::read_to_string`
(returning `none` for a missing or unreadable file).  Any failure yields
the empty set. -/
def get_ids (home : Option String) (read : String → Option String) : List String :=
  match home with
  | some h =>
    match read (idsFilePath h) with
    | some contents => (rustLines contents).foldl hsInsert []
    | none => []
  | none => []

/-- The string `App::save_ids` writes: each id followed by a newline. -/
def save_ids_contents (ids : List String) : String :=
  ids.foldl (fun s id => s ++ id ++ "\n") ""

/-- The keystroke events `run_app` matches on (`crossterm::event::KeyCode`),
restricted to the variants the Browse-mode match inspects. -/
inductive Key where
  | char : Char → Key
  | down : Key
  | up : Key
  | enter : Key
  | backspace : Key
  | esc : Key
deriving DecidableEq

/-- The mutable state of one `run_app` loop iteration in Browse mode:
the app, the pagination params, and the digit accumulator `amount`. -/
structure LoopState where
  app : App
  params : Params
  amount : String
deriving DecidableEq

/-- Outcome of dispatching one Browse-mode keystroke.  `cont` carries the
next state and the list of URLs handed to `open_url`; `panicked` models a
Rust panic (out-of-bounds index or debug-mode underflow); `search` and
`help` mark entry into the nested `'/'` and `'h'` event loops. -/
inductive StepResult where
  | cont : LoopState → List String → StepResult
  | quit : LoopState → StepResult
  | panicked : StepResult
  | search : LoopState → StepResult
  | help : LoopState → StepResult
deriving DecidableEq

/-- The `'j'`/down branch: `app.next_by(amount.parse::<usize>().unwrap_or(1))`
followed by `amount = String::default()`. -/
def rowNext (st : LoopState) : StepResult :=
  match st.app.next_by (parse_or USIZE_MAX st.amount 1) with
  | some app => StepResult.cont { st with app := app, amount := "" } []
  | none => StepResult.panicked

/-- The `'k'`/up branch: `app.previous_by(...)` then clear the accumulator. -/
def rowPrev (st : LoopState) : StepResult :=
  StepResult.cont
    { st with app := st.app.previous_by (parse_or USIZE_MAX st.amount 1), amount := "" } []

/-- The `'n'` branch: advance the page by the parsed amount and refetch; the
source does not reset `amount` here. -/
def pageNext (fetch : Params → List Response) (st : LoopState) : StepResult :=
  let params := st.params.next_page_by (parse_or U16_MAX st.amount 1)
  StepResult.cont { st with params := params, app := st.app.update_items (fetch params) } []

/-- The `'p'` branch: retreat the page by the parsed amount and refetch; the
source does not reset `amount` here. -/
def pagePrev (fetch : Params → List Response) (st : LoopState) : StepResult :=
  let params := st.params.prev_page_by (parse_or U16_MAX st.amount 1)
  StepResult.cont { st with params := params, app := st.app.update_items (fetch params) } []

/-- The `'o'` branch: `app.items[app.current.unwrap_or(0)]` panics when the
index is out of bounds; otherwise the first link titled `"pdf"` is opened,
and nothing happens when there is none. -/
def openPdf (st : LoopState) : StepResult :=
  match st.app.items[st.app.current.getD 0]? with
  | none => StepResult.panicked
  | some doc =>
    match doc.links.find? (fun link => link.title == some "pdf") with
    | some link => StepResult.cont st [link.href]
    | none => StepResult.cont st []

/-- The `'t'` branch: index as in `'o'`, then open the first link whose
`rel` is `"alternate"` with `"arxiv"` replaced by `"ar5iv"` in its href. -/
def openHtml (st : LoopState) : StepResult :=
  match st.app.items[st.app.current.getD 0]? with
  | none => StepResult.panicked
  | some doc =>
    match doc.links.find? (fun link => link.rel == "alternate") with
    | some link => StepResult.cont st [rustReplace link.href "arxiv" "ar5iv"]
    | none => StepResult.cont st []

/-- The `'s'` branch: index as in `'o'`, then insert the document's id. -/
def markSeen (st : LoopState) : StepResult :=
  match st.app.items[st.app.current.getD 0]? with
  | none => StepResult.panicked
  | some doc => StepResult.cont { st with app := st.app.add_id doc.id } []

/-- The `'d'` branch: index as in `'o'`, then remove the document's id. -/
def unmarkSeen (st : LoopState) : StepResult :=
  match st.app.items[st.app.current.getD 0]? with
  | none => StepResult.panicked
  | some doc => StepResult.cont { st with app := st.app.remove_id doc.id } []

/-- The `'b'` branch: clear the query and refetch. -/
def browseReset (fetch : Params → List Response) (st : LoopState) : StepResult :=
  let params := st.params.set_query ""
  StepResult.cont { st with params := params, app := st.app.update_items (fetch params) } []

/-- A digit branch: push the digit onto the accumulator. -/
def pushDigit (st : LoopState) (c : Char) : StepResult :=
  StepResult.cont { st with amount := st.amount.push c } []

/-- The Browse-mode keystroke dispatch of `run_app`, one iteration of the
outer loop.  `fetch` is the `get_items` oracle; unmapped keys fall through
to the source's final catch-all arm. -/
def browseStep (fetch : Params → List Response) (st : LoopState) : Key → StepResult
  | Key.char '9' => pushDigit st '9'
  | Key.char '8' => pushDigit st '8'
  | Key.char '7' => pushDigit st '7'
  | Key.char '6' => pushDigit st '6'
  | Key.char '5' => pushDigit st '5'
  | Key.char '4' => pushDigit st '4'
  | Key.char '3' => pushDigit st '3'
  | Key.char '2' => pushDigit st '2'
  | Key.char '1' => pushDigit st '1'
  | Key.char '0' => pushDigit st '0'
  | Key.char 'q' => StepResult.quit st
  | Key.down => rowNext st
  | Key.char 'j' => rowNext st
  | Key.up => rowPrev st
  | Key.char 'k' => rowPrev st
  | Key.char 'G' => StepResult.cont { st with app := st.app.last_item } []
  | Key.char 'g' => StepResult.cont { st with app := st.app.first_item } []
  | Key.char 'n' => pageNext fetch st
  | Key.char 'p' => pagePrev fetch st
  | Key.char '/' => StepResult.search st
  | Key.char 'o' => openPdf st
  | Key.char 't' => openHtml st
  | Key.char 'b' => browseReset fetch st
  | Key.char 'h' => StepResult.help st
  | Key.char 's' => markSeen st
  | Key.char 'd' => unmarkSeen st
  | _ => StepResult.cont st []

/-- A sample document with no links, for exercising the machine at concrete
inputs. -/
def bareDoc : Response :=
  ⟨"2301.00001", "A Title", "A summary", [["Ada"]], [], "2023", "2023", []⟩

/-- A document whose links hold exactly one link titled `"pdf"` (the mock
response of the spec's pdf-open property). -/
def pdfDoc : Response :=
  { bareDoc with
      links := [⟨"https://x/abs/1", "self", none, none⟩,
                ⟨"https://x/pdf/1", "related", some "application/pdf", some "pdf"⟩] }

/-- A document whose links hold exactly one link with `rel = "alternate"`,
pointing at an arxiv abstract page. -/
def htmlDoc : Response :=
  { bareDoc with
      links := [⟨"https://arxiv.org/abs/1234", "alternate", some "text/html", none⟩,
                ⟨"https://arxiv.org/pdf/1234", "related", none, some "pdf"⟩] }

/-- A loop state whose single item is `pdfDoc`, with row 0 selected. -/
def pdfState : LoopState := ⟨⟨some 0, [pdfDoc], some 0, []⟩, Params.new, ""⟩

/-- A loop state whose single item is `htmlDoc`, with row 0 selected. -/
def htmlState : LoopState := ⟨⟨some 0, [htmlDoc], some 0, []⟩, Params.new, ""⟩

/-- A loop state whose single item is `bareDoc` (no links), with row 0
selected. -/
def bareState : LoopState := ⟨⟨some 0, [bareDoc], some 0, []⟩, Params.new, ""⟩

/-- A home directory for exercising the persistence round trip. -/
def demoHome : String := "/home/user"

/-- A filesystem oracle exposing exactly the persisted form of the seen-set
of ids a, b and c at the per-user location. -/
def demoRead : String → Option String :=
  fun path =>
    if path = idsFilePath demoHome then some (save_ids_contents ["a", "b", "c"]) else none

/-- The seen-set reloaded from its persisted form. -/
def demoIds : List String := get_ids (some demoHome) demoRead

/-- When a row is selected and the list is nonempty, `next_by` succeeds and
the new selection stays within `[0, len-1]`. -/
theorem next_by_in_range (app : App) (amount i : Nat) (hlen : 1 ≤ app.items.length)
    (hsel : app.selected = some i) :
    ∃ app2, app.next_by amount = some app2 ∧
      ∃ j, app2.selected = some j ∧ j ≤ app.items.length - 1 := by
  unfold App.next_by
  rw [hsel]
  have hz : ¬ app.items.length = 0 := by omega
  simp only [hz, if_false]
  refine ⟨_, rfl, ?_⟩
  dsimp only
  split_ifs with h
  · exact ⟨_, rfl, le_refl _⟩
  · exact ⟨_, rfl, by omega⟩

/-- When no row is selected, `next_by` succeeds and lands on index 0, for
every list including the empty one. -/
theorem next_by_no_selection (app : App) (amount : Nat) (hsel : app.selected = none) :
    app.next_by amount = some { app with current := some 0, selected := some 0 } := by
  unfold App.next_by
  rw [hsel]

/-- Totality of `previous_by`: it never moves the selection forward, the new
index is bounded by the old one. -/
theorem previous_by_le (app : App) (amount i : Nat) (hsel : app.selected = some i) :
    ∃ j, (app.previous_by amount).selected = some j ∧ j ≤ i := by
  cases i with
  | zero => exact ⟨0, by simp [App.previous_by, hsel], Nat.le_refl 0⟩
  | succ k =>
    refine ⟨if amount ≥ k + 1 then 0 else k + 1 - amount, ?_, ?_⟩
    · simp [App.previous_by, hsel]
    · split_ifs <;> omega

/-- C1: the claim reads `next_page_by` as `page ← min(page + amount, 1000)`
for every `u16` amount, never wrapping or erroring.  The code computes the
`u16` sum `page + amount` before comparing, so for `page = 1` and
`amount = 65535` the sum wraps to 0 (release builds; debug builds panic on
the overflowing add) and the page becomes 0 instead of the claimed
`min(1 + 65535, 1000) = 1000`. -/
theorem c1_next_page_by_overflow :
    (Params.next_page_by ⟨1, "algorithms"⟩ 65535).page = 0 ∧
    Nat.min (1 + 65535) 1000 = 1000 := by decide

/-- C2: the claim states that `next_by` does not fail on a zero-length list
regardless of whether a prior selection exists.  With a prior selection on
an empty list the code evaluates `self.items.len() - 1`, a `usize`
underflow: the operation fails (panic in debug builds), modelled as
`none`. -/
theorem c2_next_by_empty_selected_underflows :
    App.next_by ⟨some 0, [], some 0, []⟩ 1 = none := by decide

/-- C3 counterexample: the claim states that the page-step actions clear the
accumulator after consuming it.  Starting from the initial state, pressing
`'5'` puts `"5"` into the accumulator, and pressing `'n'` advances the page
by 5 but leaves the accumulator equal to `"5"`, not the claimed `""`. -/
theorem c3_counterexample :
    browseStep (fun _ => []) ⟨App.new, Params.new, ""⟩ (Key.char '5') =
      StepResult.cont ⟨App.new, Params.new, "5"⟩ [] ∧
    browseStep (fun _ => []) ⟨App.new, Params.new, "5"⟩ (Key.char 'n') =
      StepResult.cont ⟨⟨none, [], none, []⟩, ⟨6, "algorithms"⟩, "5"⟩ [] ∧
    ("5" : String) ≠ "" := by decide

/-- Continuation of a row-forward step determines the next state: the
accumulator is cleared and the cursor advanced by the parsed amount. -/
theorem rowNext_cont (st st2 : LoopState) (urls : List String)
    (h : rowNext st = StepResult.cont st2 urls) :
    st2.amount = "" ∧ st.app.next_by (parse_or USIZE_MAX st.amount 1) = some st2.app := by
  unfold rowNext at h
  cases hn : st.app.next_by (parse_or USIZE_MAX st.amount 1) with
  | none => rw [hn] at h; exact StepResult.noConfusion h
  | some a =>
    rw [hn] at h
    injection h with h1 h2
    rw [← h1]
    exact ⟨rfl, rfl⟩

/-- Continuation of a row-backward step determines the next state: the
accumulator is cleared and the cursor moved back by the parsed amount. -/
theorem rowPrev_cont (st st2 : LoopState) (urls : List String)
    (h : rowPrev st = StepResult.cont st2 urls) :
    st2.amount = "" ∧ st2.app = st.app.previous_by (parse_or USIZE_MAX st.amount 1) := by
  unfold rowPrev at h
  injection h with h1 h2
  rw [← h1]
  exact ⟨rfl, rfl⟩

/-- C3 amended: every row-step action (`j`/`k`/down/up) consumes the digit
accumulator as its amount and clears it to empty, but the page-step actions
(`n`/`p`) consume the accumulator as their amount and leave it unchanged,
so it is reused by the next amount-aware action. -/
theorem c3_row_step_clears_page_step_keeps :
    ∀ (fetch : Params → List Response) (st : LoopState),
      (∀ st2 urls, browseStep fetch st (Key.char 'j') = StepResult.cont st2 urls →
        st2.amount = "" ∧ st.app.next_by (parse_or USIZE_MAX st.amount 1) = some st2.app) ∧
      (∀ st2 urls, browseStep fetch st Key.down = StepResult.cont st2 urls →
        st2.amount = "" ∧ st.app.next_by (parse_or USIZE_MAX st.amount 1) = some st2.app) ∧
      (∀ st2 urls, browseStep fetch st (Key.char 'k') = StepResult.cont st2 urls →
        st2.amount = "" ∧ st2.app = st.app.previous_by (parse_or USIZE_MAX st.amount 1)) ∧
      (∀ st2 urls, browseStep fetch st Key.up = StepResult.cont st2 urls →
        st2.amount = "" ∧ st2.app = st.app.previous_by (parse_or USIZE_MAX st.amount 1)) ∧
      (browseStep fetch st (Key.char 'n') =
         StepResult.cont
           ⟨st.app.update_items (fetch (st.params.next_page_by (parse_or U16_MAX st.amount 1))),
            st.params.next_page_by (parse_or U16_MAX st.amount 1), st.amount⟩ []) ∧
      (browseStep fetch st (Key.char 'p') =
         StepResult.cont
           ⟨st.app.update_items (fetch (st.params.prev_page_by (parse_or U16_MAX st.amount 1))),
            st.params.prev_page_by (parse_or U16_MAX st.amount 1), st.amount⟩ []) := by
  intro fetch st
  exact ⟨fun st2 urls h => rowNext_cont st st2 urls h,
         fun st2 urls h => rowNext_cont st st2 urls h,
         fun st2 urls h => rowPrev_cont st st2 urls h,
         fun st2 urls h => rowPrev_cont st st2 urls h,
         rfl, rfl⟩

/-- Witness for C3 amended: from the state holding `bareDoc` with
accumulator `"7"`, a `'j'` step leaves the accumulator empty (its first
move lands on index 0), and an `'n'` step advances the page from 1 to 8
while the accumulator stays `"7"`. -/
theorem c3_row_step_witness :
    ((⟨⟨some 0, [bareDoc], some 0, []⟩, Params.new, ""⟩ : LoopState).amount = "" ∧
      (⟨⟨none, [bareDoc], none, []⟩, Params.new, "7"⟩ : LoopState).app.next_by
          (parse_or USIZE_MAX "7" 1) =
        some (⟨⟨some 0, [bareDoc], some 0, []⟩, Params.new, ""⟩ : LoopState).app) ∧
    browseStep (fun _ => []) ⟨⟨none, [bareDoc], none, []⟩, Params.new, "7"⟩ (Key.char 'n') =
      StepResult.cont ⟨⟨none, [], none, []⟩, ⟨8, "algorithms"⟩, "7"⟩ [] := by
  have h := c3_row_step_clears_page_step_keeps (fun _ => [])
    ⟨⟨none, [bareDoc], none, []⟩, Params.new, "7"⟩
  exact ⟨h.1 ⟨⟨some 0, [bareDoc], some 0, []⟩, Params.new, ""⟩ [] (by decide),
         (h.2.2.2.2.1).trans (by decide)⟩

/-- C4: advancing the page then retreating by the same amount restores the
original page whenever neither clamp was hit (the advance took its
non-saturating branch and the retreat its non-flooring branch), and for
`page + amount ≤ 1000` the advance is exactly additive. -/
theorem c4_advance_retreat :
    ∀ (p : Params) (amount : Nat), p.page < 65536 → amount < 65536 →
      (((p.page + amount) % 65536 < 1000 →
          amount < (p.next_page_by amount).page →
          ((p.next_page_by amount).prev_page_by amount).page = p.page) ∧
       (p.page + amount ≤ 1000 → (p.next_page_by amount).page = p.page + amount)) := by
  intro p amount hp ha
  simp only [Params.next_page_by, Params.prev_page_by]
  constructor
  · intro hlt hgt
    simp only [Params.next_page_by, hlt, if_true] at hgt ⊢
    split_ifs <;> omega
  · intro hle
    split_ifs <;> omega

/-- Witness for C4 at `page = 5`, `amount = 3`: neither clamp is hit, the
round trip restores 5, and the advance gives exactly `5 + 3`. -/
theorem c4_advance_retreat_witness :
    ((Params.next_page_by ⟨5, "algorithms"⟩ 3).prev_page_by 3).page = 5 ∧
    (Params.next_page_by ⟨5, "algorithms"⟩ 3).page = 5 + 3 := by
  have h := c4_advance_retreat ⟨5, "algorithms"⟩ 3 (by decide) (by decide)
  exact ⟨h.1 (by decide) (by decide), h.2 (by decide)⟩

/-- C5: `prev_page_by` never produces a negative page: over the integers the
result is exactly `max 0 (page - amount)`, i.e. 0 whenever `amount ≥ page`
and `page - amount` otherwise. -/
theorem c5_retreat_clamps_at_zero :
    ∀ (p : Params) (amount : Nat),
      ((p.prev_page_by amount).page : Int) = max 0 ((p.page : Int) - amount) := by
  intro p amount
  simp only [Params.prev_page_by]
  split_ifs with h <;> omega

/-- C6: flushing the seen-set of exactly the ids a, b and c (one identifier
per line)
and reloading it through `get_ids` yields a set containing `"a"`, `"b"`
and `"c"` but not `"d"`. -/
theorem c6_seen_set_roundtrip :
    "a" ∈ demoIds ∧ "b" ∈ demoIds ∧ "c" ∈ demoIds ∧ "d" ∉ demoIds := by decide

/-- C7: when the selected document has exactly one link titled `"pdf"` with
href `u`, the `'o'` action opens exactly `u` and changes no state; when no
link is titled `"pdf"`, it opens nothing and changes no state. -/
theorem c7_pdf_open :
    ∀ (fetch : Params → List Response) (st : LoopState) (doc : Response) (u : String),
      st.app.items[st.app.current.getD 0]? = some doc →
      (((∃ l ∈ doc.links, l.title = some "pdf" ∧ l.href = u) ∧
        (∀ l ∈ doc.links, l.title = some "pdf" → l.href = u)) →
          browseStep fetch st (Key.char 'o') = StepResult.cont st [u]) ∧
      ((∀ l ∈ doc.links, l.title ≠ some "pdf") →
          browseStep fetch st (Key.char 'o') = StepResult.cont st []) := by
  intro fetch st doc u hget
  constructor
  · rintro ⟨⟨l0, hl0m, hl0t, hl0h⟩, hall⟩
    have hs : (doc.links.find? (fun link => link.title == some "pdf")).isSome := by
      rw [List.find?_isSome]
      exact ⟨l0, hl0m, by simp [hl0t]⟩
    obtain ⟨lf, hlf⟩ := Option.isSome_iff_exists.mp hs
    have hmem : lf ∈ doc.links := List.mem_of_find?_eq_some hlf
    have hp := List.find?_some hlf
    have hhref : lf.href = u := hall lf hmem (by simpa using hp)
    show openPdf st = _
    simp only [openPdf, hget, hlf, hhref]
  · intro hnone
    have hn : doc.links.find? (fun link => link.title == some "pdf") = none := by
      rw [List.find?_eq_none]
      intro l hl
      simpa using hnone l hl
    show openPdf st = _
    simp only [openPdf, hget, hn]

/-- Witness for C7: on `pdfState` the `'o'` action opens exactly
`https://x/pdf/1`; on `bareState` (a document with no links) it is a
no-op. -/
theorem c7_pdf_open_witness :
    browseStep (fun _ => []) pdfState (Key.char 'o') =
      StepResult.cont pdfState ["https://x/pdf/1"] ∧
    browseStep (fun _ => []) bareState (Key.char 'o') = StepResult.cont bareState [] := by
  have h1 := c7_pdf_open (fun _ => []) pdfState pdfDoc "https://x/pdf/1" (by decide)
  have h2 := c7_pdf_open (fun _ => []) bareState bareDoc "https://x/pdf/1" (by decide)
  exact ⟨h1.1 (by decide), h2.2 (by decide)⟩

/-- C8: when the selected document has exactly one link with
`rel = "alternate"` and href `u`, the `'t'` action opens `u` with every
occurrence of `"arxiv"` replaced by `"ar5iv"`. -/
theorem c8_html_open :
    ∀ (fetch : Params → List Response) (st : LoopState) (doc : Response) (u : String),
      st.app.items[st.app.current.getD 0]? = some doc →
      ((∃ l ∈ doc.links, l.rel = "alternate" ∧ l.href = u) ∧
       (∀ l ∈ doc.links, l.rel = "alternate" → l.href = u)) →
      browseStep fetch st (Key.char 't') =
        StepResult.cont st [rustReplace u "arxiv" "ar5iv"] := by
  intro fetch st doc u hget
  rintro ⟨⟨l0, hl0m, hl0t, hl0h⟩, hall⟩
  have hs : (doc.links.find? (fun link => link.rel == "alternate")).isSome := by
    rw [List.find?_isSome]
    exact ⟨l0, hl0m, by simp [hl0t]⟩
  obtain ⟨lf, hlf⟩ := Option.isSome_iff_exists.mp hs
  have hmem : lf ∈ doc.links := List.mem_of_find?_eq_some hlf
  have hp := List.find?_some hlf
  have hhref : lf.href = u := hall lf hmem (by simpa using hp)
  show openHtml st = _
  simp only [openHtml, hget, hlf, hhref]

/-- Witness for C8: on `htmlState` the alternate link
`https://arxiv.org/abs/1234` is rewritten to exactly
`https://ar5iv.org/abs/1234`. -/
theorem c8_html_open_witness :
    browseStep (fun _ => []) htmlState (Key.char 't') =
      StepResult.cont htmlState ["https://ar5iv.org/abs/1234"] := by
  have h := c8_html_open (fun _ => []) htmlState htmlDoc "https://arxiv.org/abs/1234"
    (by decide) (by decide)
  exact h.trans (by decide)

/-- Membership in a `foldl`-ed sequence of set inserts is membership in the
accumulator or in the inserted list. -/
theorem mem_foldl_hsInsert (l : List String) :
    ∀ (acc : List String) (x : String), x ∈ l.foldl hsInsert acc ↔ x ∈ acc ∨ x ∈ l := by
  induction l with
  | nil => intro acc x; simp
  | cons a t ih =>
    intro acc x
    rw [List.foldl_cons, ih]
    unfold hsInsert
    split_ifs with h
    · constructor
      · rintro (hx | hx)
        · exact Or.inl hx
        · exact Or.inr (List.mem_cons_of_mem a hx)
      · rintro (hx | hx)
        · exact Or.inl hx
        · rcases List.mem_cons.mp hx with he | hx
          · exact Or.inl (he ▸ h)
          · exact Or.inr hx
    · simp only [List.mem_cons]
      tauto

/-- C9: `get_ids` reads the newline-delimited identifier file at the
per-user location; a missing home directory or a missing/unreadable file
yields the empty set rather than an error, and a readable file yields
exactly the set of its lines. -/
theorem c9_missing_file_yields_empty :
    ∀ (read : String → Option String),
      (get_ids none read = []) ∧
      (∀ h, read (idsFilePath h) = none → get_ids (some h) read = []) ∧
      (∀ h c, read (idsFilePath h) = some c →
         ∀ id, id ∈ get_ids (some h) read ↔ id ∈ rustLines c) := by
  intro read
  refine ⟨rfl, ?_, ?_⟩
  · intro h hr
    simp [get_ids, hr]
  · intro h c hr id
    simp [get_ids, hr, mem_foldl_hsInsert]

/-- Witness for C9: with a filesystem on which every read fails, `get_ids`
returns the empty set both with and without a home directory. -/
theorem c9_missing_file_witness :
    get_ids (some "/home/user") (fun _ => none) = [] ∧
    get_ids none (fun _ => none) = [] := by
  have h := c9_missing_file_yields_empty (fun _ => none)
  exact ⟨h.2.1 "/home/user" rfl, h.1⟩

/-- C10: whenever the current result list is empty, the `'o'`, `'t'`, `'s'`
and `'d'` branches index `items[current.unwrap_or(0)]` without a bounds
guard, so each of them fails (out-of-bounds panic) rather than acting as a
no-op. -/
theorem c10_empty_list_item_actions_panic :
    ∀ (fetch : Params → List Response) (st : LoopState), st.app.items = [] →
      browseStep fetch st (Key.char 'o') = StepResult.panicked ∧
      browseStep fetch st (Key.char 't') = StepResult.panicked ∧
      browseStep fetch st (Key.char 's') = StepResult.panicked ∧
      browseStep fetch st (Key.char 'd') = StepResult.panicked := by
  intro fetch st h
  refine ⟨?_, ?_, ?_, ?_⟩
  · show openPdf st = _
    simp only [openPdf, h, List.getElem?_nil]
  · show openHtml st = _
    simp only [openHtml, h, List.getElem?_nil]
  · show markSeen st = _
    simp only [markSeen, h, List.getElem?_nil]
  · show unmarkSeen st = _
    simp only [unmarkSeen, h, List.getElem?_nil]

/-- Witness for C10: in the initial (empty-list) state, each of the four
item actions panics. -/
theorem c10_empty_list_witness :
    browseStep (fun _ => []) ⟨App.new, Params.new, ""⟩ (Key.char 'o') = StepResult.panicked ∧
    browseStep (fun _ => []) ⟨App.new, Params.new, ""⟩ (Key.char 't') = StepResult.panicked ∧
    browseStep (fun _ => []) ⟨App.new, Params.new, ""⟩ (Key.char 's') = StepResult.panicked ∧
    browseStep (fun _ => []) ⟨App.new, Params.new, ""⟩ (Key.char 'd') = StepResult.panicked :=
  c10_empty_list_item_actions_panic (fun _ => []) ⟨App.new, Params.new, ""⟩ rfl

end ArxivCli
